import Mathlib

/-!
Shallow embedding of the MacChanger repository (files `transaction_manager.py`,
`mac_validator.py`, `mac_spoofer.py`) and proofs about its transaction /
rollback behaviour.

Modelling conventions:
* Python objects mutated in place become explicit state passing; a
  `Transaction` held in `TransactionManager.transactions` is referenced by its
  list index.
* A rollback callback `Callable[[Transaction], bool]` may touch external state
  (the platform) and may raise; it is modelled as
  `σ → Transaction → Option Bool × σ`, where the outcome `none` stands for a
  raised exception (caught by `_execute_rollback`'s `try/except`) and
  `some b` for a normal return of `b`.
* `datetime.now().isoformat()` timestamps are pure wall-clock metadata read by
  nothing in the code; the `timestamp` field is omitted from the model.
* `rollback` additionally returns two ghost observation traces that the Python
  function does not return and that influence nothing: the list of transaction
  indices actually attempted (not skipped), and the list of
  (transaction index, callback position) pairs, one per callback invocation,
  in invocation order.
-/

/-- `Transaction` dataclass of `transaction_manager.py` (without the unused
wall-clock `timestamp` field). `status` ranges over the strings
`"pending"`, `"committed"`, `"rolled_back"`. -/
structure Transaction where
  action : String
  interface : String
  original_value : String
  new_value : String
  status : String := "pending"
deriving DecidableEq, Repr

/-- A rollback callback: takes the external state and a transaction, returns
the outcome (`none` = raised exception, `some b` = returned `b`) and the new
external state. -/
def CbFun (σ : Type) : Type := σ → Transaction → Option Bool × σ

/-- One entry of the `failed_transactions` list built by
`TransactionManager.rollback`. -/
structure FailedTxn where
  action : String
  interface : String
  original_value : String
  new_value : String
deriving DecidableEq, Repr

/-- The `results` dict returned by `TransactionManager.rollback`. -/
structure RollbackResults where
  success : Bool
  rolled_back_count : Nat
  failed_count : Nat
  failed_transactions : List FailedTxn
deriving DecidableEq, Repr

/-- State of a `TransactionManager` (fields `transactions`,
`max_transactions`, `rollback_callbacks` of the Python class), with callbacks
acting on external state `σ`. -/
structure TransactionManager (σ : Type) where
  transactions : List Transaction
  max_transactions : Nat
  rollback_callbacks : List (String × List (CbFun σ))

/-- Lookup in an association list modelling a Python `dict` (insertion
ordered, first occurrence of a key is the binding). -/
def assocLookup {β : Type} : List (String × β) → String → Option β
  | [], _ => none
  | (k, v) :: rest, key => if k = key then some v else assocLookup rest key

/-- `d[key] = v` on a Python `dict` as association list: update in place if
the key is present, append otherwise. -/
def assocSet {β : Type} : List (String × β) → String → β → List (String × β)
  | [], key, v => [(key, v)]
  | (k, w) :: rest, key, v =>
    if k = key then (key, v) :: rest else (k, w) :: assocSet rest key v

/-- `TransactionManager.add_transaction`: evict the oldest entry when the log
is at capacity (`list.pop(0)` — raises `IndexError` on an empty list, which
the model renders as `none`), then append a fresh `pending` transaction.
Returns the new manager state and the index of the new transaction. -/
def TransactionManager.add_transaction {σ : Type} (tm : TransactionManager σ)
    (action interface original_value new_value : String) :
    Option (TransactionManager σ × Nat) :=
  let fresh : Transaction :=
    { action := action, interface := interface,
      original_value := original_value, new_value := new_value,
      status := "pending" }
  if tm.transactions.length ≥ tm.max_transactions then
    match tm.transactions with
    | [] => none
    | _ :: rest =>
      some ({ tm with transactions := rest ++ [fresh] }, rest.length)
  else
    some ({ tm with transactions := tm.transactions ++ [fresh] },
      tm.transactions.length)

/-- `TransactionManager.commit_transaction`: unconditionally mark the
transaction at index `i` as `"committed"`. -/
def TransactionManager.commit_transaction {σ : Type} (tm : TransactionManager σ)
    (i : Nat) : TransactionManager σ :=
  match tm.transactions[i]? with
  | none => tm
  | some txn =>
    { tm with transactions := tm.transactions.set i { txn with status := "committed" } }

/-- `TransactionManager.register_rollback_callback`: create the action's
callback list if absent, then append the callback. -/
def TransactionManager.register_rollback_callback {σ : Type}
    (tm : TransactionManager σ) (action : String) (cb : CbFun σ) :
    TransactionManager σ :=
  match assocLookup tm.rollback_callbacks action with
  | none =>
    { tm with rollback_callbacks := tm.rollback_callbacks ++ [(action, [cb])] }
  | some l =>
    { tm with rollback_callbacks := assocSet tm.rollback_callbacks action (l ++ [cb]) }

/-- `TransactionManager.clear_history`. -/
def TransactionManager.clear_history {σ : Type} (tm : TransactionManager σ) :
    TransactionManager σ :=
  { tm with transactions := [] }

/-- The callback loop of `TransactionManager._execute_rollback`: try each
callback in registration order; a callback returning `True` stops the loop
with success; a `False` return or a raised exception (`none`) moves on to the
next callback. `ti` is the transaction's index and `k` the position of the
first callback of `cbs` in the registered list; each invocation is recorded
as the ghost event `(ti, position)`. -/
def execCallbacks {σ : Type} : List (CbFun σ) → σ → Transaction → Nat → Nat →
    Bool × σ × List (Nat × Nat)
  | [], s, _, _, _ => (false, s, [])
  | cb :: rest, s, txn, ti, k =>
    let r := cb s txn
    if r.1 = some true then (true, r.2, [(ti, k)])
    else
      let rec' := execCallbacks rest r.2 txn ti (k + 1)
      (rec'.1, rec'.2.1, (ti, k) :: rec'.2.2)

/-- `TransactionManager._execute_rollback`: no callback registered for the
action means failure; otherwise run the callback loop. -/
def execute_rollback {σ : Type} (cbs : List (String × List (CbFun σ)))
    (s : σ) (txn : Transaction) (ti : Nat) : Bool × σ × List (Nat × Nat) :=
  match assocLookup cbs txn.action with
  | none => (false, s, [])
  | some l => execCallbacks l s txn ti 0

/-- Body of the `for txn in reversed(transactions_to_rollback)` loop of
`TransactionManager.rollback`, over the list `order` of indices to process.
A transaction already `"rolled_back"` is skipped; otherwise
`_execute_rollback` runs: on success the transaction's status becomes
`"rolled_back"` and `rolled_back_count` grows, on failure `success` is
cleared, `failed_count` grows and the transaction's data is appended to
`failed_transactions`. Returns the updated transactions, external state,
results, and the ghost traces (attempted indices, callback events). -/
def rollbackLoop {σ : Type} (cbs : List (String × List (CbFun σ))) :
    List Nat → List Transaction → σ →
    List Transaction × σ × RollbackResults × List Nat × List (Nat × Nat)
  | [], txns, s => (txns, s, ⟨true, 0, 0, []⟩, [], [])
  | i :: rest, txns, s =>
    match txns[i]? with
    | none => rollbackLoop cbs rest txns s
    | some txn =>
      if txn.status = "rolled_back" then rollbackLoop cbs rest txns s
      else
        let e := execute_rollback cbs s txn i
        if e.1 then
          let r := rollbackLoop cbs rest
            (txns.set i { txn with status := "rolled_back" }) e.2.1
          (r.1, r.2.1,
            { r.2.2.1 with rolled_back_count := r.2.2.1.rolled_back_count + 1 },
            i :: r.2.2.2.1, e.2.2 ++ r.2.2.2.2)
        else
          let r := rollbackLoop cbs rest txns e.2.1
          (r.1, r.2.1,
            { success := false,
              rolled_back_count := r.2.2.1.rolled_back_count,
              failed_count := r.2.2.1.failed_count + 1,
              failed_transactions :=
                ⟨txn.action, txn.interface, txn.original_value, txn.new_value⟩ ::
                  r.2.2.1.failed_transactions },
            i :: r.2.2.2.1, e.2.2 ++ r.2.2.2.2)

/-- The indices of the transactions in `"committed"` status, in log order:
the no-argument `rollback`'s `transactions_to_rollback` selection. -/
def committedIndices {σ : Type} (tm : TransactionManager σ) : List Nat :=
  (List.range tm.transactions.length).filter
    (fun i => (tm.transactions[i]?.map Transaction.status) = some "committed")

/-- `TransactionManager.rollback`: with an explicit transaction (given by
index) roll back just that one; with `none` roll back every `"committed"`
transaction, in reverse (LIFO) order. -/
def TransactionManager.rollback {σ : Type} (tm : TransactionManager σ)
    (s : σ) (target : Option Nat) :
    TransactionManager σ × σ × RollbackResults × List Nat × List (Nat × Nat) :=
  let order : List Nat :=
    match target with
    | some i => [i]
    | none => (committedIndices tm).reverse
  let r := rollbackLoop tm.rollback_callbacks order tm.transactions s
  ({ tm with transactions := r.1 }, r.2.1, r.2.2.1, r.2.2.2.1, r.2.2.2.2)

/-! ### `mac_validator.py` -/

/-- Result dataclass `MacValidationResult`. -/
structure MacValidationResult where
  is_valid : Bool
  message : String
  vendor : Option String := none
  is_unicast : Bool := false
  is_locally_administered : Bool := false
deriving DecidableEq, Repr

/-- The character test `c in "0123456789ABCDEF"` used by `normalize_mac`. -/
def isUpperHex (c : Char) : Bool :=
  c = '0' ∨ c = '1' ∨ c = '2' ∨ c = '3' ∨ c = '4' ∨ c = '5' ∨ c = '6' ∨
  c = '7' ∨ c = '8' ∨ c = '9' ∨ c = 'A' ∨ c = 'B' ∨ c = 'C' ∨ c = 'D' ∨
  c = 'E' ∨ c = 'F'

/-- A hex digit of either case, as matched by the `[0-9A-Fa-f]` regex class. -/
def isHexDigitChar (c : Char) : Bool :=
  ('0' ≤ c ∧ c ≤ '9') ∨ ('A' ≤ c ∧ c ≤ 'F') ∨ ('a' ≤ c ∧ c ≤ 'f')

/-- Split a character list into the pairs `mac[i:i+2]` for
`i in range(0, 12, 2)` (the source only does this on lists of length 12). -/
def pairUp : List Char → List (List Char)
  | [] => []
  | [c] => [[c]]
  | a :: b :: rest => [a, b] :: pairUp rest

/-- `MacValidator.normalize_mac`: strip `.` and `-`, uppercase, strip `:`;
if 12 uppercase-hex characters remain, rejoin them in colon-separated pairs,
otherwise return the stripped string unchanged. -/
def normalize_mac (mac : String) : String :=
  let s1 := (mac.toList.filter (fun c => ¬(c = '.' ∨ c = '-'))).map Char.toUpper
  let s2 := s1.filter (fun c => ¬(c = ':'))
  if s2.length = 12 ∧ s2.all isUpperHex then
    String.intercalate ":" ((pairUp s2).map List.asString)
  else
    s2.asString

/-- The regex `MAC_PATTERN_COLON`: `^([0-9A-Fa-f]{2}:){5}([0-9A-Fa-f]{2})$`. -/
def matchesColonPattern (s : String) : Bool :=
  match s.toList with
  | [a, b, c1, c, d, c2, e, f, c3, g, h, c4, i, j, c5, k, l] =>
    isHexDigitChar a ∧ isHexDigitChar b ∧ c1 = ':' ∧
    isHexDigitChar c ∧ isHexDigitChar d ∧ c2 = ':' ∧
    isHexDigitChar e ∧ isHexDigitChar f ∧ c3 = ':' ∧
    isHexDigitChar g ∧ isHexDigitChar h ∧ c4 = ':' ∧
    isHexDigitChar i ∧ isHexDigitChar j ∧ c5 = ':' ∧
    isHexDigitChar k ∧ isHexDigitChar l
  | _ => false

/-- The regex `MAC_PATTERN_DASH`: `^([0-9A-Fa-f]{2}-){5}([0-9A-Fa-f]{2})$`. -/
def matchesDashPattern (s : String) : Bool :=
  match s.toList with
  | [a, b, c1, c, d, c2, e, f, c3, g, h, c4, i, j, c5, k, l] =>
    isHexDigitChar a ∧ isHexDigitChar b ∧ c1 = '-' ∧
    isHexDigitChar c ∧ isHexDigitChar d ∧ c2 = '-' ∧
    isHexDigitChar e ∧ isHexDigitChar f ∧ c3 = '-' ∧
    isHexDigitChar g ∧ isHexDigitChar h ∧ c4 = '-' ∧
    isHexDigitChar i ∧ isHexDigitChar j ∧ c5 = '-' ∧
    isHexDigitChar k ∧ isHexDigitChar l
  | _ => false

/-- `MacValidator.is_valid_format`: normalize, then match the colon or dash
pattern (after normalization a dash can no longer occur, but the source
checks both). -/
def is_valid_format (mac : String) : Bool :=
  let m := normalize_mac mac
  matchesColonPattern m ∨ matchesDashPattern m

/-- Value of one hex digit; only ever applied to characters accepted by
`isHexDigitChar` (Python's `int(_, 16)` would raise otherwise). -/
def hexDigitVal (c : Char) : Nat :=
  if '0' ≤ c ∧ c ≤ '9' then c.toNat - '0'.toNat
  else if 'A' ≤ c ∧ c ≤ 'F' then c.toNat - 'A'.toNat + 10
  else if 'a' ≤ c ∧ c ≤ 'f' then c.toNat - 'a'.toNat + 10
  else 0

/-- `int(mac.split(":")[0], 16)`: the value of the hex digits before the
first colon. -/
def firstOctet (mac : String) : Nat :=
  (mac.toList.takeWhile (fun c => ¬(c = ':'))).foldl
    (fun acc c => 16 * acc + hexDigitVal c) 0

/-- `MacValidator.is_unicast`: least significant bit of first octet is 0. -/
def is_unicast (mac : String) : Bool :=
  firstOctet (normalize_mac mac) % 2 = 0

/-- `MacValidator.is_locally_administered`: bit 1 of first octet is set. -/
def is_locally_administered (mac : String) : Bool :=
  firstOctet (normalize_mac mac) / 2 % 2 = 1

/-- The `REAL_VENDOR_MACS` dict literal, as the ordered key/value pairs of
the source. The literal repeats the keys `"52:54:00"` and `"00:26:86"`; as
in a Python dict literal the later binding wins, which `realVendorLookup`
implements by scanning the reversed list. -/
def REAL_VENDOR_MACS : List (String × String) :=
  [("00:25:86", "Intel Corporate"), ("00:1A:A0", "Intel"), ("00:0D:B9", "Intel"),
   ("00:19:B9", "Intel"), ("00:23:14", "Intel"), ("A8:5E:45", "Intel"),
   ("52:54:00", "Realtek"), ("00:E0:4C", "Realtek"), ("00:50:F2", "Realtek"),
   ("74:DA:38", "Realtek"),
   ("00:10:18", "Broadcom"), ("00:04:75", "Broadcom"), ("00:0B:85", "Broadcom"),
   ("BC:92:6B", "Broadcom"),
   ("00:03:7F", "Atheros"), ("00:30:B6", "Atheros"), ("00:11:95", "Atheros"),
   ("1C:7E:E5", "Atheros"),
   ("00:1A:B3", "Qualcomm"), ("00:26:86", "Qualcomm"), ("00:11:50", "Qualcomm"),
   ("00:12:D9", "Cisco"), ("00:1F:CA", "Cisco"), ("00:0C:41", "Cisco"),
   ("00:1A:6C", "Cisco"), ("2C:B0:5D", "Cisco"),
   ("00:03:93", "Apple"), ("00:0A:95", "Apple"), ("A4:5E:60", "Apple"),
   ("AC:87:A3", "Apple"), ("C0:A0:BB", "Apple"), ("F0:18:98", "Apple"),
   ("00:14:22", "Dell"), ("00:01:AF", "Dell"), ("00:16:35", "Dell"),
   ("50:9A:4C", "Dell"),
   ("00:04:EA", "HP"), ("00:1A:4B", "HP"), ("00:30:EA", "HP"), ("50:E5:49", "HP"),
   ("00:1A:2B", "Lenovo"), ("00:21:6A", "Lenovo"), ("28:F1:0E", "Lenovo"),
   ("00:02:2D", "IBM"), ("00:05:5B", "IBM"), ("00:04:AC", "IBM"),
   ("00:15:5D", "Microsoft"), ("00:0C:29", "VMware"),
   ("52:54:00", "QEMU/KVM"), ("52:55:44", "QEMU"),
   ("00:1A:92", "ASUS"), ("BC:5F:F4", "ASUS"),
   ("04:18:D6", "TP-Link"), ("5C:F3:70", "TP-Link"),
   ("00:15:E9", "D-Link"), ("00:26:86", "D-Link"),
   ("00:13:10", "Linksys"), ("00:18:E7", "Linksys"),
   ("00:01:03", "3Com"), ("00:60:97", "3Com"),
   ("00:00:4E", "NEC"), ("00:A0:DE", "NEC"),
   ("00:0A:FD", "Panasonic"), ("08:ED:B7", "Panasonic"),
   ("00:06:6B", "Sony"), ("00:1F:3B", "Sony"),
   ("00:1A:8A", "Samsung"), ("E0:55:3D", "Samsung"),
   ("00:1E:8F", "LG"), ("AC:64:17", "LG"),
   ("00:0C:6E", "Toshiba"), ("F8:34:41", "Toshiba"),
   ("00:1A:43", "Canon"), ("B0:35:9F", "Canon"),
   ("00:00:93", "Xerox"), ("00:11:09", "Xerox"),
   ("00:0D:FE", "Epson"), ("00:AC:E2", "Epson"),
   ("00:11:22", "Generic Device"), ("00:AA:BB", "Generic Device"),
   ("02:00:00", "Generic Unicast")]

/-- Lookup in `REAL_VENDOR_MACS` with Python dict-literal semantics (the
last occurrence of a duplicated key wins). -/
def realVendorLookup (oui : String) : Option String :=
  assocLookup REAL_VENDOR_MACS.reverse oui

/-- `mac.split(":")[:3]` joined with `":"`: the OUI prefix of a normalized
MAC address. -/
def ouiOf (mac : String) : String :=
  String.intercalate ":" ((mac.splitOn ":").take 3)

/-- `MacValidator.get_vendor`. -/
def get_vendor (mac : String) : String :=
  let m := normalize_mac mac
  match realVendorLookup (ouiOf m) with
  | some v => v
  | none => "Unknown/Generic Vendor"

/-- `MacValidator.validate`. -/
def validate (mac : String) (must_be_unicast must_have_vendor : Bool) :
    MacValidationResult :=
  let m := normalize_mac mac
  if ¬is_valid_format m then
    { is_valid := false, message := "Invalid MAC format: " ++ m }
  else if must_be_unicast ∧ ¬is_unicast m then
    { is_valid := false, message := "MAC " ++ m ++ " is multicast, not unicast",
      is_unicast := false }
  else
    let vendor := get_vendor m
    if must_have_vendor ∧ vendor = "Unknown/Generic Vendor" then
      { is_valid := false,
        message := "MAC " ++ m ++ " does not match known vendor patterns",
        vendor := some vendor, is_unicast := is_unicast m,
        is_locally_administered := is_locally_administered m }
    else
      { is_valid := true,
        message := "Valid MAC address: " ++ m ++ " (" ++ vendor ++ ")",
        vendor := some vendor, is_unicast := is_unicast m,
        is_locally_administered := is_locally_administered m }

/-! ### `platform_handlers.py` interface and `mac_spoofer.py` -/

/-- The slice of the platform handler interface that `spoof_mac_address`
uses, over an abstract platform state `π`: `get_mac_address` returns the
current MAC (`none` for an unreadable interface) and `set_mac_address`
returns whether the change succeeded; both may advance the platform state. -/
structure PlatformHandler (π : Type) where
  get_mac_address : π → String → Option String × π
  set_mac_address : π → String → String → Bool × π

/-- State of a `MacAddressSpoofer`: its platform handler, its transaction
manager (whose callbacks act on the platform state `π`), and the
`auto_rollback_on_error` flag. -/
structure Spoofer (π : Type) where
  handler : PlatformHandler π
  tm : TransactionManager π
  auto_rollback_on_error : Bool

/-- The `rollback_mac_spoof` closure registered by
`MacAddressSpoofer._setup_rollback_handlers`: set the interface's MAC back
to the transaction's `original_value`; a `False` result from the platform
handler (and any exception, absorbed by the closure's own `try/except`) is
reported as callback failure. -/
def rollback_mac_spoof {π : Type} (h : PlatformHandler π) : CbFun π :=
  fun p txn =>
    let r := h.set_mac_address p txn.interface txn.original_value
    (some r.1, r.2)

/-- `MacAddressSpoofer.__init__`: a fresh `TransactionManager` (capacity
1000) with `rollback_mac_spoof` registered for the `"spoof_mac"` action. -/
def mkSpoofer {π : Type} (h : PlatformHandler π) (auto : Bool) : Spoofer π :=
  { handler := h,
    tm := TransactionManager.register_rollback_callback
      { transactions := [], max_transactions := 1000, rollback_callbacks := [] }
      "spoof_mac" (rollback_mac_spoof h),
    auto_rollback_on_error := auto }

/-- The verification re-read normalization of `mac_spoofer.py` line 175:
`MacValidator.normalize_mac(verify_mac) if verify_mac else None`. -/
def normalizeVerify : Option String → Option String
  | some s => if s = "" then none else some (normalize_mac s)
  | none => none

/-- `MacAddressSpoofer.spoof_mac_address interface mac_address force` on
spoofer state `sp` and platform state `p`. Returns the new spoofer state,
the new platform state, and the `(success, message)` pair. The `none`
branch of `add_transaction` is the `IndexError` a full zero-capacity log
raises, which the outermost `except` of the source turns into a failure
return. -/
def spoof_mac_address {π : Type} (sp : Spoofer π) (p : π)
    (interface mac_address : String) (force : Bool) :
    Spoofer π × π × Bool × String :=
  if ¬force ∧ ¬(validate mac_address true false).is_valid then
    (sp, p, false, "Invalid MAC: " ++ (validate mac_address true false).message)
  else
    let g := sp.handler.get_mac_address p interface
    match g.1 with
    | none => (sp, g.2, false, "Could not retrieve current MAC for " ++ interface)
    | some cur0 =>
      if cur0 = "" then
        (sp, g.2, false, "Could not retrieve current MAC for " ++ interface)
      else
        let current_mac := normalize_mac cur0
        let new_mac := normalize_mac mac_address
        if current_mac = new_mac then
          (sp, g.2, true, "Interface " ++ interface ++ " already has MAC " ++ new_mac)
        else
          match sp.tm.add_transaction "spoof_mac" interface current_mac new_mac with
          | none =>
            (sp, g.2, false, "Unexpected error in spoof_mac_address: IndexError")
          | some (tm1, idx) =>
            let st := sp.handler.set_mac_address g.2 interface new_mac
            if ¬st.1 then
              if sp.auto_rollback_on_error then
                let rb := tm1.rollback st.2 (some idx)
                ({ sp with tm := rb.1 }, rb.2.1, false,
                  "Platform handler failed to set MAC on " ++ interface)
              else
                ({ sp with tm := tm1 }, st.2, false,
                  "Platform handler failed to set MAC on " ++ interface)
            else
              let v := sp.handler.get_mac_address st.2 interface
              let verify_mac : Option String := normalizeVerify v.1
              if verify_mac ≠ some new_mac then
                let msg := "MAC verification failed on " ++ interface ++
                  ". Expected " ++ new_mac ++ ", got " ++
                  (match verify_mac with | some s => s | none => "None")
                if sp.auto_rollback_on_error then
                  let rb := tm1.rollback v.2 (some idx)
                  ({ sp with tm := rb.1 }, rb.2.1, false, msg)
                else
                  ({ sp with tm := tm1 }, v.2, false, msg)
              else
                ({ sp with tm := tm1.commit_transaction idx }, v.2, true,
                  "Successfully spoofed MAC on " ++ interface ++ ": " ++
                    current_mac ++ " -> " ++ new_mac)

/-- The `for interface, mac in mappings.items()` loop of
`MacAddressSpoofer.spoof_multiple_interfaces`, with `results` as an
insertion-ordered dict. On a failed target with
`rollback_on_partial_failure` set, the source runs a full `rollback()`,
then executes
`for remaining_interface in list(results.keys())[results[interface] != (success, message):]`
— the comparison is a bool used as the slice start — marking those keys
`(False, "Cancelled due to partial failure")`, and breaks. -/
def spoofMultipleLoop {π : Type} (rbFlag : Bool) :
    List (String × String) → Spoofer π → π → List (String × (Bool × String)) →
    Spoofer π × π × List (String × (Bool × String))
  | [], sp, p, results => (sp, p, results)
  | (interface, mac) :: rest, sp, p, results =>
    let r := spoof_mac_address sp p interface mac false
    let results' := assocSet results interface (r.2.2.1, r.2.2.2)
    if ¬r.2.2.1 ∧ rbFlag then
      let rb := r.1.tm.rollback r.2.1 none
      let start : Nat :=
        if assocLookup results' interface ≠ some (r.2.2.1, r.2.2.2) then 1 else 0
      let keys := (results'.map Prod.fst).drop start
      let final := keys.foldl
        (fun acc k => assocSet acc k (false, "Cancelled due to partial failure"))
        results'
      ({ r.1 with tm := rb.1 }, rb.2.1, final)
    else
      spoofMultipleLoop rbFlag rest r.1 r.2.1 results'

/-- `MacAddressSpoofer.spoof_multiple_interfaces`. -/
def spoof_multiple_interfaces {π : Type} (sp : Spoofer π) (p : π)
    (mappings : List (String × String)) (rollback_on_partial_failure : Bool) :
    Spoofer π × π × List (String × (Bool × String)) :=
  spoofMultipleLoop rollback_on_partial_failure mappings sp p []

/-! ### A scripted platform (the shape of the `MagicMock` handler of
`tests.py`): `get_mac_address` and `set_mac_address` consume queued
responses. -/

/-- Platform state holding queued responses for `get_mac_address` and
`set_mac_address`. -/
structure ScriptedPlatform where
  gets : List (Option String)
  sets : List Bool
deriving DecidableEq, Repr

/-- The handler over `ScriptedPlatform`: each call pops the next queued
response (an exhausted queue reads as unreadable / failing). -/
def scriptedHandler : PlatformHandler ScriptedPlatform :=
  { get_mac_address := fun q _ =>
      (q.gets.headD none, { q with gets := q.gets.tail }),
    set_mac_address := fun q _ _ =>
      (q.sets.headD false, { q with sets := q.sets.tail }) }

/-! ### Auxiliary notions and concrete states used in the statements below -/

/-- How one `TransactionManager.rollback` call may move the status of the
transaction stored at a given index: either it is untouched, or a
not-yet-rolled-back transaction is marked `"rolled_back"`. -/
def StatusStep (a b : Option Transaction) : Prop :=
  b = a ∨ ∃ t, a = some t ∧ t.status ≠ "rolled_back" ∧
    b = some { t with status := "rolled_back" }

/-- Replace a raised exception (`none`) in a callback outcome by a normal
`False` return, leaving everything else alone. -/
def degradeOutcome {σ : Type} (r : Option Bool × σ) : Option Bool × σ :=
  (match r.1 with
   | none => some false
   | some b => some b, r.2)

/-- A sequence of `add_transaction` calls; a raised `IndexError` (the
`none` case) propagates, ending the sequence with the log unchanged. -/
def addMany {σ : Type} : TransactionManager σ →
    List (String × String × String × String) → TransactionManager σ
  | tm, [] => tm
  | tm, (a, b, c, d) :: rest =>
    match tm.add_transaction a b c d with
    | some (tm', _) => addMany tm' rest
    | none => tm

/-- A rollback callback over trivial external state that always succeeds. -/
def alwaysTrueCb : CbFun Unit := fun s _ => (some true, s)

/-- A rollback callback that always raises an exception. -/
def raisingCb : CbFun Unit := fun s _ => (none, s)

/-- A rollback callback that always returns `False`. -/
def alwaysFalseCb : CbFun Unit := fun s _ => (some false, s)

/-- A one-transaction manager (status `st`) whose `"spoof_mac"` action has a
single always-succeeding rollback callback. -/
def unitTM (st : String) : TransactionManager Unit :=
  { transactions := [⟨"spoof_mac", "eth0", "00:11:22:33:44:55", "00:25:86:AA:BB:CC", st⟩],
    max_transactions := 1000,
    rollback_callbacks := [("spoof_mac", [alwaysTrueCb])] }

/-- Scripted platform for the batch run of claim C1: `eth0`'s change
succeeds and verifies, `eth1`'s `set_mac_address` fails, and the two queued
`True` set-responses serve the two rollbacks (`eth1`'s per-target
auto-rollback, then `eth0`'s batch rollback). `eth2` is never reached. -/
def c1Platform : ScriptedPlatform :=
  { gets := [some "00:11:22:33:44:55", some "00:25:86:12:34:56",
             some "00:11:22:33:44:66"],
    sets := [true, false, true, true] }

/-- The batch mapping of claim C1's failing input. -/
def c1Mappings : List (String × String) :=
  [("eth0", "00:25:86:12:34:56"), ("eth1", "52:54:00:12:34:56"),
   ("eth2", "00:1A:A0:00:00:01")]

/-- The batch run of claim C1's failing input. -/
def c1Run : Spoofer ScriptedPlatform × ScriptedPlatform × List (String × (Bool × String)) :=
  spoof_multiple_interfaces (mkSpoofer scriptedHandler true) c1Platform c1Mappings true

/-- Platform whose interface currently holds the broadcast address. -/
def c6Platform : ScriptedPlatform :=
  { gets := [some "FF:FF:FF:FF:FF:FF"], sets := [] }

/-- Scripted platform for the verification-failure run of claim C2's
witness: the set call reports success but the re-read still returns the old
value; the auto-rollback's set succeeds. -/
def c2Platform : ScriptedPlatform :=
  { gets := [some "00:11:22:33:44:55", some "00:11:22:33:44:55"],
    sets := [true, true] }

/-! ### Helper lemmas -/

theorem setConcatLen {α : Type} (l : List α) (a b : α) :
    (l ++ [a]).set l.length b = l ++ [b] := by
  simp

theorem execCallbacks_fst_eq {σ : Type} (cbs : List (CbFun σ)) (txn : Transaction)
    (ti : Nat) : ∀ (s : σ) (k : Nat),
    ∀ ev ∈ (execCallbacks cbs s txn ti k).2.2, ev.1 = ti := by
  induction cbs with
  | nil => intro s k ev hev; simp [execCallbacks] at hev
  | cons cb rest ih =>
    intro s k ev hev
    by_cases hc : (cb s txn).1 = some true
    · simp [execCallbacks, hc] at hev
      simp [hev]
    · simp only [execCallbacks, hc, if_neg, if_false] at hev
      rcases List.mem_cons.mp hev with h | h
      · simp [h]
      · exact ih (cb s txn).2 (k + 1) ev h

theorem execCallbacks_snd_range {σ : Type} (cbs : List (CbFun σ)) (txn : Transaction)
    (ti : Nat) : ∀ (s : σ) (k : Nat),
    ((execCallbacks cbs s txn ti k).2.2).map Prod.snd =
      List.range' k ((execCallbacks cbs s txn ti k).2.2).length := by
  induction cbs with
  | nil => intro s k; simp [execCallbacks]
  | cons cb rest ih =>
    intro s k
    by_cases hc : (cb s txn).1 = some true
    · simp [execCallbacks, hc, List.range']
    · simp only [execCallbacks, hc, if_false, List.map_cons, List.length_cons]
      rw [List.range'_succ]
      exact congrArg (k :: ·) (ih (cb s txn).2 (k + 1))

theorem execCallbacks_false_all {σ : Type} (cbs : List (CbFun σ)) (txn : Transaction)
    (ti : Nat) : ∀ (s : σ) (k : Nat),
    (execCallbacks cbs s txn ti k).1 = false →
    ((execCallbacks cbs s txn ti k).2.2).length = cbs.length := by
  induction cbs with
  | nil => intro s k _; simp [execCallbacks]
  | cons cb rest ih =>
    intro s k hfail
    by_cases hc : (cb s txn).1 = some true
    · simp [execCallbacks, hc] at hfail
    · simp only [execCallbacks, hc, if_false, List.length_cons] at hfail ⊢
      exact congrArg (· + 1) (ih (cb s txn).2 (k + 1) hfail)

theorem execute_rollback_fst_eq {σ : Type} (cbs : List (String × List (CbFun σ)))
    (s : σ) (txn : Transaction) (ti : Nat) :
    ∀ ev ∈ (execute_rollback cbs s txn ti).2.2, ev.1 = ti := by
  unfold execute_rollback
  cases h : assocLookup cbs txn.action with
  | none => simp
  | some l => exact execCallbacks_fst_eq l txn ti s 0

theorem rollbackLoop_cons_none {σ : Type} (cbs : List (String × List (CbFun σ)))
    (i : Nat) (rest : List Nat) (txns : List Transaction) (s : σ)
    (hg : txns[i]? = none) :
    rollbackLoop cbs (i :: rest) txns s = rollbackLoop cbs rest txns s := by
  simp [rollbackLoop, hg]

theorem rollbackLoop_cons_skip {σ : Type} (cbs : List (String × List (CbFun σ)))
    (i : Nat) (rest : List Nat) (txns : List Transaction) (s : σ)
    (txn : Transaction) (hg : txns[i]? = some txn)
    (hrb : txn.status = "rolled_back") :
    rollbackLoop cbs (i :: rest) txns s = rollbackLoop cbs rest txns s := by
  simp [rollbackLoop, hg, hrb]

theorem rollbackLoop_cons_true {σ : Type} (cbs : List (String × List (CbFun σ)))
    (i : Nat) (rest : List Nat) (txns : List Transaction) (s : σ)
    (txn : Transaction) (hg : txns[i]? = some txn)
    (hrb : txn.status ≠ "rolled_back")
    (he : (execute_rollback cbs s txn i).1 = true) :
    rollbackLoop cbs (i :: rest) txns s =
      ((rollbackLoop cbs rest (txns.set i { txn with status := "rolled_back" })
          (execute_rollback cbs s txn i).2.1).1,
       (rollbackLoop cbs rest (txns.set i { txn with status := "rolled_back" })
          (execute_rollback cbs s txn i).2.1).2.1,
       { (rollbackLoop cbs rest (txns.set i { txn with status := "rolled_back" })
            (execute_rollback cbs s txn i).2.1).2.2.1 with
         rolled_back_count :=
           (rollbackLoop cbs rest (txns.set i { txn with status := "rolled_back" })
              (execute_rollback cbs s txn i).2.1).2.2.1.rolled_back_count + 1 },
       i :: (rollbackLoop cbs rest (txns.set i { txn with status := "rolled_back" })
          (execute_rollback cbs s txn i).2.1).2.2.2.1,
       (execute_rollback cbs s txn i).2.2 ++
         (rollbackLoop cbs rest (txns.set i { txn with status := "rolled_back" })
            (execute_rollback cbs s txn i).2.1).2.2.2.2) := by
  simp [rollbackLoop, hg, hrb, he]

theorem rollbackLoop_cons_false {σ : Type} (cbs : List (String × List (CbFun σ)))
    (i : Nat) (rest : List Nat) (txns : List Transaction) (s : σ)
    (txn : Transaction) (hg : txns[i]? = some txn)
    (hrb : txn.status ≠ "rolled_back")
    (he : (execute_rollback cbs s txn i).1 = false) :
    rollbackLoop cbs (i :: rest) txns s =
      ((rollbackLoop cbs rest txns (execute_rollback cbs s txn i).2.1).1,
       (rollbackLoop cbs rest txns (execute_rollback cbs s txn i).2.1).2.1,
       { success := false,
         rolled_back_count :=
           (rollbackLoop cbs rest txns
              (execute_rollback cbs s txn i).2.1).2.2.1.rolled_back_count,
         failed_count :=
           (rollbackLoop cbs rest txns
              (execute_rollback cbs s txn i).2.1).2.2.1.failed_count + 1,
         failed_transactions :=
           ⟨txn.action, txn.interface, txn.original_value, txn.new_value⟩ ::
             (rollbackLoop cbs rest txns
                (execute_rollback cbs s txn i).2.1).2.2.1.failed_transactions },
       i :: (rollbackLoop cbs rest txns
          (execute_rollback cbs s txn i).2.1).2.2.2.1,
       (execute_rollback cbs s txn i).2.2 ++
         (rollbackLoop cbs rest txns
            (execute_rollback cbs s txn i).2.1).2.2.2.2) := by
  simp [rollbackLoop, hg, hrb, he]

theorem rollbackLoop_events_mem {σ : Type} (cbs : List (String × List (CbFun σ))) :
    ∀ (order : List Nat) (txns : List Transaction) (s : σ),
    ∀ ev ∈ (rollbackLoop cbs order txns s).2.2.2.2, ev.1 ∈ order := by
  intro order
  induction order with
  | nil => intro txns s ev hev; simp [rollbackLoop] at hev
  | cons i rest ih =>
    intro txns s ev hev
    rcases hg : txns[i]? with _ | txn
    · rw [rollbackLoop_cons_none cbs i rest txns s hg] at hev
      exact List.mem_cons_of_mem i (ih txns s ev hev)
    · by_cases hrb : txn.status = "rolled_back"
      · rw [rollbackLoop_cons_skip cbs i rest txns s txn hg hrb] at hev
        exact List.mem_cons_of_mem i (ih txns s ev hev)
      · cases he : (execute_rollback cbs s txn i).1 with
        | true =>
          rw [rollbackLoop_cons_true cbs i rest txns s txn hg hrb he] at hev
          rcases List.mem_append.mp hev with h | h
          · rw [execute_rollback_fst_eq cbs s txn i ev h]
            exact List.mem_cons_self i rest
          · exact List.mem_cons_of_mem i (ih _ _ ev h)
        | false =>
          rw [rollbackLoop_cons_false cbs i rest txns s txn hg hrb he] at hev
          rcases List.mem_append.mp hev with h | h
          · rw [execute_rollback_fst_eq cbs s txn i ev h]
            exact List.mem_cons_self i rest
          · exact List.mem_cons_of_mem i (ih _ _ ev h)

theorem rollbackLoop_events_pairwise {σ : Type} (cbs : List (String × List (CbFun σ))) :
    ∀ (order : List Nat) (txns : List Transaction) (s : σ),
    order.Pairwise (· > ·) →
    ((rollbackLoop cbs order txns s).2.2.2.2).Pairwise
      (fun a b : Nat × Nat => b.1 ≤ a.1) := by
  intro order
  induction order with
  | nil => intro txns s _; simp [rollbackLoop]
  | cons i rest ih =>
    intro txns s hpw
    rcases List.pairwise_cons.mp hpw with ⟨hgt, hrest⟩
    rcases hg : txns[i]? with _ | txn
    · rw [rollbackLoop_cons_none cbs i rest txns s hg]
      exact ih txns s hrest
    · by_cases hrb : txn.status = "rolled_back"
      · rw [rollbackLoop_cons_skip cbs i rest txns s txn hg hrb]
        exact ih txns s hrest
      · cases he : (execute_rollback cbs s txn i).1 with
        | true =>
          rw [rollbackLoop_cons_true cbs i rest txns s txn hg hrb he]
          refine List.pairwise_append.mpr ⟨?_, ih _ _ hrest, ?_⟩
          · refine List.pairwise_of_forall_mem_list ?_
            intro a ha b hb
            rw [execute_rollback_fst_eq cbs s txn i a ha,
              execute_rollback_fst_eq cbs s txn i b hb]
          · intro a ha b hb
            rw [execute_rollback_fst_eq cbs s txn i a ha]
            exact Nat.le_of_lt (hgt b.1 (rollbackLoop_events_mem cbs rest _ _ b hb))
        | false =>
          rw [rollbackLoop_cons_false cbs i rest txns s txn hg hrb he]
          refine List.pairwise_append.mpr ⟨?_, ih _ _ hrest, ?_⟩
          · refine List.pairwise_of_forall_mem_list ?_
            intro a ha b hb
            rw [execute_rollback_fst_eq cbs s txn i a ha,
              execute_rollback_fst_eq cbs s txn i b hb]
          · intro a ha b hb
            rw [execute_rollback_fst_eq cbs s txn i a ha]
            exact Nat.le_of_lt (hgt b.1 (rollbackLoop_events_mem cbs rest _ _ b hb))

theorem rollbackLoop_attempted_eq {σ : Type} (cbs : List (String × List (CbFun σ))) :
    ∀ (order : List Nat) (txns : List Transaction) (s : σ),
    (∀ i ∈ order, (txns[i]?.map Transaction.status) = some "committed") →
    order.Pairwise (· ≠ ·) →
    (rollbackLoop cbs order txns s).2.2.2.1 = order := by
  intro order
  induction order with
  | nil => intro txns s _ _; simp [rollbackLoop]
  | cons i rest ih =>
    intro txns s hcomm hpw
    rcases List.pairwise_cons.mp hpw with ⟨hne, hrest⟩
    have hi := hcomm i (List.mem_cons_self i rest)
    rcases hg : txns[i]? with _ | txn
    · rw [hg] at hi; simp at hi
    · rw [hg] at hi
      simp only [Option.map_some'] at hi
      have hst : txn.status = "committed" := Option.some.inj hi
      have hrb : txn.status ≠ "rolled_back" := by rw [hst]; decide
      cases he : (execute_rollback cbs s txn i).1 with
      | true =>
        rw [rollbackLoop_cons_true cbs i rest txns s txn hg hrb he]
        refine congrArg (i :: ·) (ih _ _ ?_ hrest)
        intro j hj
        rw [List.getElem?_set_ne (hne j hj)]
        exact hcomm j (List.mem_cons_of_mem i hj)
      | false =>
        rw [rollbackLoop_cons_false cbs i rest txns s txn hg hrb he]
        refine congrArg (i :: ·) (ih _ _ ?_ hrest)
        intro j hj
        exact hcomm j (List.mem_cons_of_mem i hj)

theorem StatusStep.trans_step {a b c : Option Transaction} :
    StatusStep a b → StatusStep b c → StatusStep a c := by
  rintro (rfl | ⟨t, rfl, hts, rfl⟩) (h2 | ⟨u, hu, hus, rfl⟩)
  · exact Or.inl h2
  · exact Or.inr ⟨u, hu, hus, rfl⟩
  · exact Or.inr ⟨t, rfl, hts, h2.symm ▸ rfl⟩
  · rcases Option.some.inj hu with rfl
    exact absurd rfl hus

theorem rollbackLoop_status_step {σ : Type} (cbs : List (String × List (CbFun σ))) :
    ∀ (order : List Nat) (txns : List Transaction) (s : σ) (j : Nat),
    StatusStep txns[j]? ((rollbackLoop cbs order txns s).1)[j]? := by
  intro order
  induction order with
  | nil => intro txns s j; exact Or.inl rfl
  | cons i rest ih =>
    intro txns s j
    rcases hg : txns[i]? with _ | txn
    · rw [rollbackLoop_cons_none cbs i rest txns s hg]
      exact ih txns s j
    · by_cases hrb : txn.status = "rolled_back"
      · rw [rollbackLoop_cons_skip cbs i rest txns s txn hg hrb]
        exact ih txns s j
      · cases he : (execute_rollback cbs s txn i).1 with
        | true =>
          rw [rollbackLoop_cons_true cbs i rest txns s txn hg hrb he]
          refine StatusStep.trans_step (b := (txns.set i { txn with status := "rolled_back" })[j]?) ?_ (ih _ _ j)
          by_cases hij : j = i
          · subst hij
            have hlt : j < txns.length := by
              rcases List.getElem?_eq_some.mp hg with ⟨hlt, _⟩
              exact hlt
            rw [List.getElem?_set_self hlt, hg]
            exact Or.inr ⟨txn, rfl, hrb, rfl⟩
          · rw [List.getElem?_set_ne (fun hh => hij hh.symm)]
            exact Or.inl rfl
        | false =>
          rw [rollbackLoop_cons_false cbs i rest txns s txn hg hrb he]
          exact ih _ _ j

theorem rollbackLoop_success_iff {σ : Type} (cbs : List (String × List (CbFun σ))) :
    ∀ (order : List Nat) (txns : List Transaction) (s : σ),
    (rollbackLoop cbs order txns s).2.2.1.success =
      decide ((rollbackLoop cbs order txns s).2.2.1.failed_count = 0) := by
  intro order
  induction order with
  | nil => intro txns s; simp [rollbackLoop]
  | cons i rest ih =>
    intro txns s
    rcases hg : txns[i]? with _ | txn
    · rw [rollbackLoop_cons_none cbs i rest txns s hg]; exact ih txns s
    · by_cases hrb : txn.status = "rolled_back"
      · rw [rollbackLoop_cons_skip cbs i rest txns s txn hg hrb]; exact ih txns s
      · cases he : (execute_rollback cbs s txn i).1 with
        | true =>
          rw [rollbackLoop_cons_true cbs i rest txns s txn hg hrb he]
          exact ih _ _
        | false =>
          rw [rollbackLoop_cons_false cbs i rest txns s txn hg hrb he]
          simp

/-! ### Claim theorems -/

/-- C3: `rollback()` with no argument attempts rollback of exactly the
transactions whose status is `"committed"`, in reverse chronological (LIFO)
order of their position in the log: the attempted indices are the committed
indices reversed, every callback invocation belongs to a committed
transaction, and the transaction indices of the callback-invocation trace
are weakly decreasing — so for committed `T1` recorded before `T2`, every
callback invocation for `T2` precedes every callback invocation for `T1`. -/
theorem c3_rollback_all_committed_lifo {σ : Type} (tm : TransactionManager σ)
    (s : σ) :
    (tm.rollback s none).2.2.2.1 = (committedIndices tm).reverse ∧
    (∀ ev ∈ (tm.rollback s none).2.2.2.2, ev.1 ∈ committedIndices tm) ∧
    ((tm.rollback s none).2.2.2.2).Pairwise (fun a b : Nat × Nat => b.1 ≤ a.1) := by
  have h1 : (committedIndices tm).Pairwise (· < ·) :=
    (List.pairwise_lt_range _).sublist (List.filter_sublist _)
  have h2 : ((committedIndices tm).reverse).Pairwise (· > ·) :=
    List.pairwise_reverse.mpr h1
  have hcomm : ∀ i ∈ (committedIndices tm).reverse,
      (tm.transactions[i]?.map Transaction.status) = some "committed" := by
    intro i hi
    have := List.mem_filter.mp (List.mem_reverse.mp hi)
    exact of_decide_eq_true this.2
  refine ⟨?_, ?_, ?_⟩
  · simp only [TransactionManager.rollback]
    exact rollbackLoop_attempted_eq _ _ _ _ hcomm
      (h2.imp (fun h => Nat.ne_of_gt h))
  · intro ev hev
    simp only [TransactionManager.rollback] at hev
    exact List.mem_reverse.mp (rollbackLoop_events_mem _ _ _ _ ev hev)
  · simp only [TransactionManager.rollback]
    exact rollbackLoop_events_pairwise _ _ _ _ h2

/-- C1 (failing run): in the batch
`spoof_multiple_interfaces` call on `c1Mappings` over `c1Platform` —
`eth0` succeeds, `eth1`'s set fails, `eth2` still unprocessed — the
returned mapping overwrites **every already-processed** target, including
the succeeded `eth0` and the genuinely failed `eth1`, with
`(False, "Cancelled due to partial failure")`, and contains **no** entry at
all for the not-yet-processed `eth2`; the full-log rollback itself does run
(both logged transactions end `"rolled_back"`). The claim instead requires
one entry per requested target with only `eth2` cancelled. -/
theorem c1_partial_failure_cancellation_run :
    c1Run.2.2 =
      [("eth0", (false, "Cancelled due to partial failure")),
       ("eth1", (false, "Cancelled due to partial failure"))] ∧
    assocLookup c1Run.2.2 "eth2" = none ∧
    c1Run.1.tm.transactions.map Transaction.status =
      ["rolled_back", "rolled_back"] := by
  exact ⟨rfl, rfl, rfl⟩

/-- C4: for a transaction processed by `rollback` (the explicit single-
transaction form, on a not-yet-rolled-back transaction): the callbacks
registered for its action are invoked in registration order (positions
`0, 1, 2, ...` consecutively); on overall success the transaction's status
becomes `"rolled_back"` and `rolled_back_count` is 1 with nothing failed; on
overall failure (including no callback registered, where nothing is invoked)
the log is left unchanged, `failed_count` is 1 and the transaction's
action / interface / before / after values are appended to
`failed_transactions`, with every registered callback having been tried;
and the report's `success` field is true iff `failed_count = 0`. -/
theorem c4_rollback_per_transaction_accounting {σ : Type}
    (tm : TransactionManager σ) (s : σ) (i : Nat) (txn : Transaction)
    (h1 : tm.transactions[i]? = some txn)
    (h2 : txn.status ≠ "rolled_back") :
    (tm.rollback s (some i)).2.2.2.1 = [i] ∧
    (tm.rollback s (some i)).2.2.2.2 =
      (execute_rollback tm.rollback_callbacks s txn i).2.2 ∧
    ((execute_rollback tm.rollback_callbacks s txn i).2.2).map Prod.snd =
      List.range ((execute_rollback tm.rollback_callbacks s txn i).2.2).length ∧
    ((execute_rollback tm.rollback_callbacks s txn i).1 = false →
      ((execute_rollback tm.rollback_callbacks s txn i).2.2).length =
        ((assocLookup tm.rollback_callbacks txn.action).getD []).length) ∧
    ((execute_rollback tm.rollback_callbacks s txn i).1 = true →
      (tm.rollback s (some i)).1.transactions =
        tm.transactions.set i { txn with status := "rolled_back" } ∧
      (tm.rollback s (some i)).2.2.1 = ⟨true, 1, 0, []⟩) ∧
    ((execute_rollback tm.rollback_callbacks s txn i).1 = false →
      (tm.rollback s (some i)).1.transactions = tm.transactions ∧
      (tm.rollback s (some i)).2.2.1 =
        ⟨false, 0, 1,
          [⟨txn.action, txn.interface, txn.original_value, txn.new_value⟩]⟩) ∧
    (tm.rollback s (some i)).2.2.1.success =
      decide ((tm.rollback s (some i)).2.2.1.failed_count = 0) := by
  have hsnd : ((execute_rollback tm.rollback_callbacks s txn i).2.2).map Prod.snd =
      List.range ((execute_rollback tm.rollback_callbacks s txn i).2.2).length := by
    cases hl : assocLookup tm.rollback_callbacks txn.action with
    | none => simp [execute_rollback, hl]
    | some l =>
      simp only [execute_rollback, hl, List.range_eq_range']
      exact execCallbacks_snd_range l txn i s 0
  have hall : (execute_rollback tm.rollback_callbacks s txn i).1 = false →
      ((execute_rollback tm.rollback_callbacks s txn i).2.2).length =
        ((assocLookup tm.rollback_callbacks txn.action).getD []).length := by
    intro hfalse
    cases hl : assocLookup tm.rollback_callbacks txn.action with
    | none => simp [execute_rollback, hl]
    | some l =>
      simp only [execute_rollback, hl, Option.getD_some]
      simp only [execute_rollback, hl] at hfalse
      exact execCallbacks_false_all l txn i s 0 hfalse
  cases he : (execute_rollback tm.rollback_callbacks s txn i).1 with
  | true =>
    have hL : rollbackLoop tm.rollback_callbacks [i] tm.transactions s =
        (tm.transactions.set i { txn with status := "rolled_back" },
         (execute_rollback tm.rollback_callbacks s txn i).2.1,
         ⟨true, 1, 0, []⟩, [i],
         (execute_rollback tm.rollback_callbacks s txn i).2.2) := by
      rw [rollbackLoop_cons_true tm.rollback_callbacks i [] tm.transactions s txn h1 h2 he]
      simp [rollbackLoop]
    refine ⟨?_, ?_, hsnd, ?_, ?_, ?_, ?_⟩ <;>
      simp [TransactionManager.rollback, hL, he]
  | false =>
    have hL : rollbackLoop tm.rollback_callbacks [i] tm.transactions s =
        (tm.transactions,
         (execute_rollback tm.rollback_callbacks s txn i).2.1,
         ⟨false, 0, 1,
           [⟨txn.action, txn.interface, txn.original_value, txn.new_value⟩]⟩, [i],
         (execute_rollback tm.rollback_callbacks s txn i).2.2) := by
      rw [rollbackLoop_cons_false tm.rollback_callbacks i [] tm.transactions s txn h1 h2 he]
      simp [rollbackLoop]
    refine ⟨?_, ?_, hsnd, ?_, ?_, ?_, ?_⟩ <;>
      simp [TransactionManager.rollback, hL, he, hall he]

/-- C9: `rollback` with an explicit transaction processes it even when its
status is `"pending"` — the committed-only filter applies only to the
no-argument form: the pending transaction is attempted, its callbacks run
exactly as `_execute_rollback` dictates, and on callback success the
pending transaction is marked `"rolled_back"` (the path by which
`spoof_mac_address` auto-reverts a never-committed transaction). -/
theorem c9_explicit_rollback_processes_pending {σ : Type}
    (tm : TransactionManager σ) (s : σ) (i : Nat) (txn : Transaction)
    (h1 : tm.transactions[i]? = some txn)
    (h2 : txn.status = "pending") :
    (tm.rollback s (some i)).2.2.2.1 = [i] ∧
    (tm.rollback s (some i)).2.2.2.2 =
      (execute_rollback tm.rollback_callbacks s txn i).2.2 ∧
    ((execute_rollback tm.rollback_callbacks s txn i).1 = true →
      ((tm.rollback s (some i)).1.transactions)[i]? =
        some { txn with status := "rolled_back" } ∧
      (tm.rollback s (some i)).2.2.1.rolled_back_count = 1) := by
  have h2' : txn.status ≠ "rolled_back" := by rw [h2]; decide
  have hlt : i < tm.transactions.length :=
    (List.getElem?_eq_some.mp h1).1
  cases he : (execute_rollback tm.rollback_callbacks s txn i).1 with
  | true =>
    have hL : rollbackLoop tm.rollback_callbacks [i] tm.transactions s =
        (tm.transactions.set i { txn with status := "rolled_back" },
         (execute_rollback tm.rollback_callbacks s txn i).2.1,
         ⟨true, 1, 0, []⟩, [i],
         (execute_rollback tm.rollback_callbacks s txn i).2.2) := by
      rw [rollbackLoop_cons_true tm.rollback_callbacks i [] tm.transactions s txn h1 h2' he]
      simp [rollbackLoop]
    refine ⟨?_, ?_, ?_⟩ <;>
      simp [TransactionManager.rollback, hL, List.getElem?_set_self hlt]
  | false =>
    have hL : rollbackLoop tm.rollback_callbacks [i] tm.transactions s =
        (tm.transactions,
         (execute_rollback tm.rollback_callbacks s txn i).2.1,
         ⟨false, 0, 1,
           [⟨txn.action, txn.interface, txn.original_value, txn.new_value⟩]⟩, [i],
         (execute_rollback tm.rollback_callbacks s txn i).2.2) := by
      rw [rollbackLoop_cons_false tm.rollback_callbacks i [] tm.transactions s txn h1 h2' he]
      simp [rollbackLoop]
    refine ⟨?_, ?_, ?_⟩ <;>
      simp [TransactionManager.rollback, hL, he]

/-- C5 (counterexample): statuses are not one-way under arbitrary operation
sequences. Starting from a single pending transaction with a succeeding
callback: `rollback(t)` marks it `"rolled_back"` (callback invoked once);
`commit_transaction(t)` then moves it **back** to `"committed"`; a further
`rollback()` invokes the callback a **second** time. This violates the
claimed one-way `pending → committed → rolled_back` order and the claimed
once-only callback invocation over operation sequences. -/
theorem c5_status_not_one_way_counterexample :
    ((unitTM "pending").rollback () (some 0)).1.transactions.map Transaction.status =
      ["rolled_back"] ∧
    ((unitTM "pending").rollback () (some 0)).2.2.2.2.length = 1 ∧
    ((((unitTM "pending").rollback () (some 0)).1.commit_transaction 0).transactions.map
      Transaction.status) = ["committed"] ∧
    (((((unitTM "pending").rollback () (some 0)).1.commit_transaction 0).rollback ()
      none).2.2.2.2.length) = 1 := by
  exact ⟨rfl, rfl, rfl, rfl⟩

/-- C5 (amended): what does hold. `commit_transaction i` changes exactly the
status of index `i`, to `"committed"` (so a status never re-enters
`"pending"`, but a `"rolled_back"` transaction can re-enter `"committed"`);
every `rollback` call either leaves a slot's status unchanged or moves a
not-yet-rolled-back status to `"rolled_back"`; and `rollback` on an
already-`"rolled_back"` transaction is a complete no-op — no callback is
invoked, nothing is counted, nothing changes. -/
theorem c5_amended_status_transitions {σ : Type} (tm : TransactionManager σ)
    (s : σ) :
    (∀ i txn j, tm.transactions[i]? = some txn → j ≠ i →
      ((tm.commit_transaction i).transactions)[j]? = tm.transactions[j]?) ∧
    (∀ i txn, tm.transactions[i]? = some txn →
      ((tm.commit_transaction i).transactions)[i]? =
        some { txn with status := "committed" }) ∧
    (∀ (target : Option Nat) (j : Nat),
      StatusStep tm.transactions[j]? ((tm.rollback s target).1.transactions)[j]?) ∧
    (∀ i txn, tm.transactions[i]? = some txn → txn.status = "rolled_back" →
      tm.rollback s (some i) = (tm, s, ⟨true, 0, 0, []⟩, [], [])) := by
  refine ⟨?_, ?_, ?_, ?_⟩
  · intro i txn j hi hj
    simp only [TransactionManager.commit_transaction, hi]
    exact List.getElem?_set_ne (fun hh => hj hh.symm)
  · intro i txn hi
    have hlt : i < tm.transactions.length := (List.getElem?_eq_some.mp hi).1
    simp only [TransactionManager.commit_transaction, hi]
    exact List.getElem?_set_self hlt
  · intro target j
    cases target with
    | none =>
      simp only [TransactionManager.rollback]
      exact rollbackLoop_status_step _ _ _ _ j
    | some i =>
      simp only [TransactionManager.rollback]
      exact rollbackLoop_status_step _ _ _ _ j
  · intro i txn hi hrb
    have hL : rollbackLoop tm.rollback_callbacks [i] tm.transactions s =
        (tm.transactions, s, ⟨true, 0, 0, []⟩, [], []) := by
      rw [rollbackLoop_cons_skip tm.rollback_callbacks i [] tm.transactions s txn hi hrb]
      simp [rollbackLoop]
    simp [TransactionManager.rollback, hL]

theorem add_transaction_eq_none {σ : Type} (tm : TransactionManager σ)
    (a b c d : String)
    (hc : tm.transactions.length ≥ tm.max_transactions)
    (htx : tm.transactions = []) :
    tm.add_transaction a b c d = none := by
  have hc' : ([] : List Transaction).length ≥ tm.max_transactions := htx ▸ hc
  simp only [TransactionManager.add_transaction, htx, if_pos hc']

theorem add_transaction_eq_evict {σ : Type} (tm : TransactionManager σ)
    (a b c d : String) (hd : Transaction) (rest : List Transaction)
    (hc : tm.transactions.length ≥ tm.max_transactions)
    (htx : tm.transactions = hd :: rest) :
    tm.add_transaction a b c d =
      some ({ tm with transactions := rest ++ [⟨a, b, c, d, "pending"⟩] },
        rest.length) := by
  have hc' : (hd :: rest).length ≥ tm.max_transactions := htx ▸ hc
  simp only [TransactionManager.add_transaction, htx, if_pos hc']

theorem add_transaction_eq_append {σ : Type} (tm : TransactionManager σ)
    (a b c d : String)
    (hc : ¬tm.transactions.length ≥ tm.max_transactions) :
    tm.add_transaction a b c d =
      some ({ tm with transactions := tm.transactions ++ [⟨a, b, c, d, "pending"⟩] },
        tm.transactions.length) := by
  simp only [TransactionManager.add_transaction, if_neg hc]

theorem add_transaction_bounds {σ : Type} (tm : TransactionManager σ)
    (a b c d : String) (tm' : TransactionManager σ) (idx : Nat)
    (h : tm.add_transaction a b c d = some (tm', idx)) :
    tm'.max_transactions = tm.max_transactions ∧
    (tm.transactions.length ≤ tm.max_transactions →
      tm'.transactions.length ≤ tm'.max_transactions) := by
  by_cases hc : tm.transactions.length ≥ tm.max_transactions
  · cases htx : tm.transactions with
    | nil =>
      rw [add_transaction_eq_none tm a b c d hc htx] at h
      cases h
    | cons hd rest =>
      rw [add_transaction_eq_evict tm a b c d hd rest hc htx] at h
      have h1 : { tm with transactions :=
          rest ++ [(⟨a, b, c, d, "pending"⟩ : Transaction)] } = tm' :=
        congrArg Prod.fst (Option.some.inj h)
      constructor
      · rw [← h1]
      · intro hlen
        rw [← h1]
        simp only [List.length_cons] at hlen
        simp only [List.length_append, List.length_singleton]
        omega
  · rw [add_transaction_eq_append tm a b c d hc] at h
    have h1 : { tm with transactions :=
        tm.transactions ++ [(⟨a, b, c, d, "pending"⟩ : Transaction)] } = tm' :=
      congrArg Prod.fst (Option.some.inj h)
    constructor
    · rw [← h1]
    · intro _
      rw [← h1]
      simp only [List.length_append, List.length_singleton]
      omega

theorem addMany_length_le {σ : Type} :
    ∀ (calls : List (String × String × String × String))
      (tm : TransactionManager σ),
    tm.transactions.length ≤ tm.max_transactions →
    (addMany tm calls).transactions.length ≤ tm.max_transactions := by
  intro calls
  induction calls with
  | nil => intro tm h; exact h
  | cons cl rest ih =>
    intro tm h
    obtain ⟨a, b, c, d⟩ := cl
    cases hadd : tm.add_transaction a b c d with
    | none => simpa [addMany, hadd] using h
    | some pr =>
      obtain ⟨tm', idx⟩ := pr
      have hb := add_transaction_bounds tm a b c d tm' idx hadd
      have hrec := ih tm' (hb.1 ▸ hb.2 h)
      rw [hb.1] at hrec
      simpa [addMany, hadd] using hrec

/-- C8: the transaction log never exceeds `max_transactions`. A successful
`add_transaction` keeps the length within the capacity and appends the new
transaction, created `"pending"`, at the end; when the log is at capacity
the oldest entry (index 0) is evicted first; and along any sequence of
`add_transaction` calls starting within capacity, the length stays within
capacity. -/
theorem c8_capacity_never_exceeded {σ : Type} (tm : TransactionManager σ) :
    (∀ a b c d tm' idx,
      tm.transactions.length ≤ tm.max_transactions →
      tm.add_transaction a b c d = some (tm', idx) →
      tm'.transactions.length ≤ tm.max_transactions ∧
      tm'.transactions[idx]? = some ⟨a, b, c, d, "pending"⟩ ∧
      idx + 1 = tm'.transactions.length) ∧
    (∀ a b c d,
      tm.transactions.length = tm.max_transactions →
      tm.transactions ≠ [] →
      tm.add_transaction a b c d =
        some ({ tm with transactions :=
            tm.transactions.tail ++ [⟨a, b, c, d, "pending"⟩] },
          tm.transactions.tail.length)) ∧
    (∀ calls,
      tm.transactions.length ≤ tm.max_transactions →
      (addMany tm calls).transactions.length ≤ tm.max_transactions) := by
  refine ⟨?_, ?_, fun calls h => addMany_length_le calls tm h⟩
  · intro a b c d tm' idx hlen hadd
    by_cases hc : tm.transactions.length ≥ tm.max_transactions
    · cases htx : tm.transactions with
      | nil =>
        rw [add_transaction_eq_none tm a b c d hc htx] at hadd
        cases hadd
      | cons hd rest =>
        rw [add_transaction_eq_evict tm a b c d hd rest hc htx] at hadd
        have h1 : { tm with transactions :=
            rest ++ [(⟨a, b, c, d, "pending"⟩ : Transaction)] } = tm' :=
          congrArg Prod.fst (Option.some.inj hadd)
        have h2 : rest.length = idx :=
          congrArg Prod.snd (Option.some.inj hadd)
        rw [← h1, ← h2]
        refine ⟨?_, List.getElem?_concat_length rest _, by simp⟩
        have hlen2 : (hd :: rest).length ≤ tm.max_transactions := htx ▸ hlen
        simp only [List.length_cons] at hlen2
        simp only [List.length_append, List.length_singleton]
        omega
    · rw [add_transaction_eq_append tm a b c d hc] at hadd
      have h1 : { tm with transactions :=
          tm.transactions ++ [(⟨a, b, c, d, "pending"⟩ : Transaction)] } = tm' :=
        congrArg Prod.fst (Option.some.inj hadd)
      have h2 : tm.transactions.length = idx :=
        congrArg Prod.snd (Option.some.inj hadd)
      rw [← h1, ← h2]
      refine ⟨?_, List.getElem?_concat_length tm.transactions _, by simp⟩
      simp only [List.length_append, List.length_singleton]
      omega
  · intro a b c d hlen hne
    have hc : tm.transactions.length ≥ tm.max_transactions := le_of_eq hlen.symm
    cases htx : tm.transactions with
    | nil => exact absurd htx hne
    | cons hd rest =>
      rw [add_transaction_eq_evict tm a b c d hd rest hc htx]
      simp

/-- C10: an exception raised by a rollback callback never escapes
`_execute_rollback`: the raising callback is treated exactly as one that
returned `False` — replacing every exception outcome by a `False` return
(`degradeOutcome`) changes nothing about the callback loop's verdict, its
final external state, or which callbacks get invoked, so the loop (and
hence `rollback`) always produces a report rather than propagating the
callback's error. -/
theorem c10_callback_exception_equivalent_to_failure {σ : Type}
    (cbs1 cbs2 : List (CbFun σ))
    (h : List.Forall₂ (fun cb cb' => ∀ (s : σ) (t : Transaction),
      cb' s t = degradeOutcome (cb s t)) cbs1 cbs2) :
    ∀ (s : σ) (txn : Transaction) (ti k : Nat),
    execCallbacks cbs1 s txn ti k = execCallbacks cbs2 s txn ti k := by
  induction h with
  | nil => intro s txn ti k; rfl
  | @cons a b l1 l2 hcb htail ih =>
    intro s txn ti k
    have hb := hcb s txn
    rcases hao : a s txn with ⟨out, s1⟩
    rw [hao] at hb
    rcases out with _ | b'
    · simp only [execCallbacks, hao, hb, degradeOutcome]
      simp only [reduceCtorEq, if_false, Option.some.injEq, Bool.false_eq_true,
        if_neg]
      rw [ih s1 txn ti (k + 1)]
    · cases b' with
      | true => simp [execCallbacks, hao, hb, degradeOutcome]
      | false =>
        simp only [execCallbacks, hao, hb, degradeOutcome]
        simp only [Option.some.injEq, Bool.false_eq_true, if_false, if_neg]
        rw [ih s1 txn ti (k + 1)]

/-- C2: when the platform `set_mac_address` reports success but the re-read,
normalized MAC differs from the normalized requested one, `spoof_mac_address`
returns failure, and with `auto_rollback_on_error` enabled the recorded
transaction is rolled back (status `"rolled_back"`, given the rollback
set call succeeds) rather than committed. -/
theorem c2_verification_mismatch_fails_and_rolls_back {π : Type}
    (h : PlatformHandler π) (ts : List Transaction) (M : Nat)
    (p p1 p2 p3 p4 : π) (interface mac cur : String) (v1 : Option String)
    (hlen : ts.length < M)
    (hval : (validate mac true false).is_valid = true)
    (hget : h.get_mac_address p interface = (some cur, p1))
    (hne : cur ≠ "")
    (hdiff : normalize_mac cur ≠ normalize_mac mac)
    (hset : h.set_mac_address p1 interface (normalize_mac mac) = (true, p2))
    (hver : h.get_mac_address p2 interface = (v1, p3))
    (hmm : normalizeVerify v1 ≠ some (normalize_mac mac))
    (hrb : h.set_mac_address p3 interface (normalize_mac cur) = (true, p4)) :
    (spoof_mac_address
        ⟨h, ⟨ts, M, [("spoof_mac", [rollback_mac_spoof h])]⟩, true⟩
        p interface mac false).2.2.1 = false ∧
    (spoof_mac_address
        ⟨h, ⟨ts, M, [("spoof_mac", [rollback_mac_spoof h])]⟩, true⟩
        p interface mac false).1.tm.transactions =
      ts ++ [⟨"spoof_mac", interface, normalize_mac cur, normalize_mac mac,
        "rolled_back"⟩] ∧
    (spoof_mac_address
        ⟨h, ⟨ts, M, [("spoof_mac", [rollback_mac_spoof h])]⟩, true⟩
        p interface mac false).2.1 = p4 := by
  have hc : ¬ts.length ≥ M := not_le.mpr hlen
  have hfresh : (⟨"spoof_mac", interface, normalize_mac cur, normalize_mac mac,
      "pending"⟩ : Transaction).status ≠ "rolled_back" := by simp
  have hgetc : (ts ++ [(⟨"spoof_mac", interface, normalize_mac cur,
      normalize_mac mac, "pending"⟩ : Transaction)])[ts.length]? =
      some ⟨"spoof_mac", interface, normalize_mac cur, normalize_mac mac,
        "pending"⟩ :=
    List.getElem?_concat_length ts _
  have hcb : execute_rollback [("spoof_mac", [rollback_mac_spoof h])] p3
      ⟨"spoof_mac", interface, normalize_mac cur, normalize_mac mac, "pending"⟩
      ts.length = (true, p4, [(ts.length, 0)]) := by
    simp [execute_rollback, assocLookup, execCallbacks, rollback_mac_spoof, hrb]
  have hL : rollbackLoop [("spoof_mac", [rollback_mac_spoof h])] [ts.length]
      (ts ++ [⟨"spoof_mac", interface, normalize_mac cur, normalize_mac mac,
        "pending"⟩]) p3 =
      (ts ++ [⟨"spoof_mac", interface, normalize_mac cur, normalize_mac mac,
        "rolled_back"⟩], p4, ⟨true, 1, 0, []⟩, [ts.length],
       [(ts.length, 0)]) := by
    rw [rollbackLoop_cons_true _ ts.length [] _ p3 _ hgetc hfresh
      (by rw [hcb])]
    simp [rollbackLoop, hcb, setConcatLen]
  have hRB : (TransactionManager.rollback
      ⟨ts ++ [⟨"spoof_mac", interface, normalize_mac cur, normalize_mac mac,
        "pending"⟩], M, [("spoof_mac", [rollback_mac_spoof h])]⟩ p3
      (some ts.length)) =
      (⟨ts ++ [⟨"spoof_mac", interface, normalize_mac cur, normalize_mac mac,
        "rolled_back"⟩], M, [("spoof_mac", [rollback_mac_spoof h])]⟩, p4,
       ⟨true, 1, 0, []⟩, [ts.length], [(ts.length, 0)]) := by
    simp only [TransactionManager.rollback, hL]
  refine ⟨?_, ?_, ?_⟩ <;>
    simp only [spoof_mac_address, Bool.not_eq_true, hval, not_true_eq_false,
      and_false, if_false, ite_false, hget, hne, hdiff,
      TransactionManager.add_transaction, hc, hset, hver, hmm, hRB] <;>
    simp [hne, hdiff, hmm, hRB]

/-- Witness for C2: a concrete scripted run (current MAC
`00:11:22:33:44:55`, request `00:25:86:12:34:56`) in which set reports
success but the re-read still shows the old MAC; the call fails, the
transaction ends `"rolled_back"`, and both scripted set responses are
consumed (the spoof attempt and the auto-rollback). -/
theorem c2_witness :
    (validate "00:25:86:12:34:56" true false).is_valid = true ∧
    normalize_mac "00:11:22:33:44:55" ≠ normalize_mac "00:25:86:12:34:56" ∧
    ((spoof_mac_address
        ⟨scriptedHandler, ⟨[], 1000,
          [("spoof_mac", [rollback_mac_spoof scriptedHandler])]⟩, true⟩
        c2Platform "eth0" "00:25:86:12:34:56" false).2.2.1 = false ∧
     (spoof_mac_address
        ⟨scriptedHandler, ⟨[], 1000,
          [("spoof_mac", [rollback_mac_spoof scriptedHandler])]⟩, true⟩
        c2Platform "eth0" "00:25:86:12:34:56" false).1.tm.transactions =
       [] ++ [⟨"spoof_mac", "eth0", normalize_mac "00:11:22:33:44:55",
         normalize_mac "00:25:86:12:34:56", "rolled_back"⟩] ∧
     (spoof_mac_address
        ⟨scriptedHandler, ⟨[], 1000,
          [("spoof_mac", [rollback_mac_spoof scriptedHandler])]⟩, true⟩
        c2Platform "eth0" "00:25:86:12:34:56" false).2.1 =
       (⟨[], []⟩ : ScriptedPlatform)) :=
  ⟨rfl, by decide,
   c2_verification_mismatch_fails_and_rolls_back scriptedHandler [] 1000
     c2Platform ⟨[some "00:11:22:33:44:55"], [true, true]⟩
     ⟨[some "00:11:22:33:44:55"], [true]⟩ ⟨[], [true]⟩ ⟨[], []⟩
     "eth0" "00:25:86:12:34:56" "00:11:22:33:44:55" (some "00:11:22:33:44:55")
     (by decide) rfl rfl (by decide) (by decide) rfl rfl (by decide) rfl⟩

/-- C6 (counterexample): validation runs before the already-equal
short-circuit, so a call whose requested value equals the interface's
current value can still fail: with the current MAC `FF:FF:FF:FF:FF:FF` and
the identical requested value, `spoof_mac_address` returns `False` with a
multicast validation message, where the claim requires success. -/
theorem c6_invalid_equal_mac_counterexample :
    (scriptedHandler.get_mac_address c6Platform "eth0").1 =
      some "FF:FF:FF:FF:FF:FF" ∧
    (spoof_mac_address (mkSpoofer scriptedHandler true) c6Platform "eth0"
      "FF:FF:FF:FF:FF:FF" false).2.2.1 = false ∧
    (spoof_mac_address (mkSpoofer scriptedHandler true) c6Platform "eth0"
      "FF:FF:FF:FF:FF:FF" false).2.2.2 =
      "Invalid MAC: MAC FF:FF:FF:FF:FF:FF is multicast, not unicast" := by
  exact ⟨rfl, rfl, rfl⟩

/-- C6 (amended): when the requested value passes validation (or `force`
is set) and the interface's current value normalizes to the normalized
requested value, `spoof_mac_address` reports success, leaves the spoofer
state (in particular the transaction log) untouched, and returns the
platform state exactly as it was after the single read — no transaction is
created and the mutating `set_mac_address` is never invoked. -/
theorem c6_amended_noop_when_already_set {π : Type}
    (h : PlatformHandler π) (tmv : TransactionManager π) (auto force : Bool)
    (p p1 : π) (interface mac cur : String)
    (hvf : force = true ∨ (validate mac true false).is_valid = true)
    (hget : h.get_mac_address p interface = (some cur, p1))
    (hne : cur ≠ "")
    (heq : normalize_mac cur = normalize_mac mac) :
    spoof_mac_address ⟨h, tmv, auto⟩ p interface mac force =
      (⟨h, tmv, auto⟩, p1, true,
       "Interface " ++ interface ++ " already has MAC " ++ normalize_mac mac) := by
  rcases hvf with hf | hv
  · subst hf
    simp [spoof_mac_address, hget, hne, heq]
  · simp [spoof_mac_address, hv, hget, hne, heq]

/-- Witness for the amended C6: requesting the MAC the interface already
has succeeds, leaves the spoofer untouched and consumes only the read
(the scripted set queue is returned intact). -/
theorem c6_witness :
    (validate "00:25:86:12:34:56" true false).is_valid = true ∧
    spoof_mac_address (mkSpoofer scriptedHandler true)
        (⟨[some "00:25:86:12:34:56"], [true]⟩ : ScriptedPlatform)
        "eth0" "00:25:86:12:34:56" false =
      (mkSpoofer scriptedHandler true, (⟨[], [true]⟩ : ScriptedPlatform), true,
       "Interface eth0 already has MAC 00:25:86:12:34:56") :=
  ⟨rfl,
   c6_amended_noop_when_already_set scriptedHandler
     (mkSpoofer scriptedHandler true).tm true false
     ⟨[some "00:25:86:12:34:56"], [true]⟩ ⟨[], [true]⟩
     "eth0" "00:25:86:12:34:56" "00:25:86:12:34:56"
     (Or.inr rfl) rfl (by decide) rfl⟩

/-- C7: a call that fails at validation (invalid requested value, `force`
not set) or at the snapshot (current value unreadable: `None` or empty)
returns failure immediately with the spoofer state — in particular the
transaction log — completely untouched; the platform state shows no call
at all in the validation case and exactly the one read in the snapshot
case, so the mutating operation is never invoked. -/
theorem c7_early_failure_creates_no_transaction {π : Type}
    (h : PlatformHandler π) (tmv : TransactionManager π) (auto : Bool)
    (p p1 : π) (interface mac : String) (g0 : Option String) :
    ((validate mac true false).is_valid = false →
      spoof_mac_address ⟨h, tmv, auto⟩ p interface mac false =
        (⟨h, tmv, auto⟩, p, false,
         "Invalid MAC: " ++ (validate mac true false).message)) ∧
    (∀ force : Bool,
      (force = true ∨ (validate mac true false).is_valid = true) →
      h.get_mac_address p interface = (g0, p1) →
      (g0 = none ∨ g0 = some "") →
      spoof_mac_address ⟨h, tmv, auto⟩ p interface mac force =
        (⟨h, tmv, auto⟩, p1, false,
         "Could not retrieve current MAC for " ++ interface)) := by
  constructor
  · intro hv
    simp [spoof_mac_address, hv]
  · intro force hvf hget hg0
    rcases hg0 with hg | hg <;> subst hg
    · rcases hvf with hf | hv
      · subst hf; simp [spoof_mac_address, hget]
      · simp [spoof_mac_address, hv, hget]
    · rcases hvf with hf | hv
      · subst hf; simp [spoof_mac_address, hget]
      · simp [spoof_mac_address, hv, hget]

/-- Witness for C7: spoofing to the malformed value `INVALID` fails with
the validation message and changes nothing. -/
theorem c7_witness :
    (validate "INVALID" true false).is_valid = false ∧
    spoof_mac_address (mkSpoofer scriptedHandler true)
        (⟨[], []⟩ : ScriptedPlatform) "eth0" "INVALID" false =
      (mkSpoofer scriptedHandler true, (⟨[], []⟩ : ScriptedPlatform), false,
       "Invalid MAC: " ++ (validate "INVALID" true false).message) :=
  ⟨rfl,
   (c7_early_failure_creates_no_transaction scriptedHandler
     (mkSpoofer scriptedHandler true).tm true ⟨[], []⟩ ⟨[], []⟩
     "eth0" "INVALID" none).1 rfl⟩

/-- Witness for C4: rolling back a single committed transaction whose
(sole, succeeding) callback runs — it is attempted, and the report counts
one rollback and no failures. -/
theorem c4_witness :
    (unitTM "committed").transactions[0]? =
      some ⟨"spoof_mac", "eth0", "00:11:22:33:44:55", "00:25:86:AA:BB:CC",
        "committed"⟩ ∧
    ((unitTM "committed").rollback () (some 0)).2.2.2.1 = [0] ∧
    ((unitTM "committed").rollback () (some 0)).2.2.1 = ⟨true, 1, 0, []⟩ := by
  refine ⟨rfl, ?_, ?_⟩
  · exact (c4_rollback_per_transaction_accounting (unitTM "committed") () 0
      ⟨"spoof_mac", "eth0", "00:11:22:33:44:55", "00:25:86:AA:BB:CC",
        "committed"⟩ rfl (by decide)).1
  · exact ((c4_rollback_per_transaction_accounting (unitTM "committed") () 0
      ⟨"spoof_mac", "eth0", "00:11:22:33:44:55", "00:25:86:AA:BB:CC",
        "committed"⟩ rfl (by decide)).2.2.2.2.1 rfl).2

/-- Witness for the amended C5: rolling back an already-`"rolled_back"`
transaction is a complete no-op. -/
theorem c5_witness :
    (unitTM "rolled_back").transactions[0]? =
      some ⟨"spoof_mac", "eth0", "00:11:22:33:44:55", "00:25:86:AA:BB:CC",
        "rolled_back"⟩ ∧
    (unitTM "rolled_back").rollback () (some 0) =
      (unitTM "rolled_back", (), ⟨true, 0, 0, []⟩, [], []) :=
  ⟨rfl,
   (c5_amended_status_transitions (unitTM "rolled_back") ()).2.2.2 0
     ⟨"spoof_mac", "eth0", "00:11:22:33:44:55", "00:25:86:AA:BB:CC",
       "rolled_back"⟩ rfl rfl⟩

/-- A two-transaction manager exactly at its capacity of 2. -/
def c8TM : TransactionManager Unit :=
  { transactions :=
      [⟨"spoof_mac", "eth0", "00:11:22:33:44:55", "00:25:86:AA:BB:CC", "committed"⟩,
       ⟨"spoof_mac", "eth1", "00:11:22:33:44:66", "52:54:00:AA:BB:CC", "committed"⟩],
    max_transactions := 2,
    rollback_callbacks := [] }

/-- Witness for C8: adding to a manager at capacity evicts the oldest
entry and appends the new pending transaction. -/
theorem c8_witness :
    c8TM.transactions.length = c8TM.max_transactions ∧
    c8TM.add_transaction "spoof_mac" "eth2" "00:11:22:33:44:77" "00:25:86:12:34:56" =
      some ({ c8TM with transactions := c8TM.transactions.tail ++
          [⟨"spoof_mac", "eth2", "00:11:22:33:44:77", "00:25:86:12:34:56",
            "pending"⟩] },
        c8TM.transactions.tail.length) :=
  ⟨rfl,
   (c8_capacity_never_exceeded c8TM).2.1 "spoof_mac" "eth2"
     "00:11:22:33:44:77" "00:25:86:12:34:56" rfl (by decide)⟩

/-- Witness for C9: an explicitly passed pending transaction is processed
by `rollback` and, its callback succeeding, ends `"rolled_back"`. -/
theorem c9_witness :
    (unitTM "pending").transactions[0]? =
      some ⟨"spoof_mac", "eth0", "00:11:22:33:44:55", "00:25:86:AA:BB:CC",
        "pending"⟩ ∧
    ((unitTM "pending").rollback () (some 0)).2.2.2.1 = [0] ∧
    (((unitTM "pending").rollback () (some 0)).1.transactions)[0]? =
      some ⟨"spoof_mac", "eth0", "00:11:22:33:44:55", "00:25:86:AA:BB:CC",
        "rolled_back"⟩ := by
  refine ⟨rfl, ?_, ?_⟩
  · exact (c9_explicit_rollback_processes_pending (unitTM "pending") () 0
      ⟨"spoof_mac", "eth0", "00:11:22:33:44:55", "00:25:86:AA:BB:CC",
        "pending"⟩ rfl rfl).1
  · exact ((c9_explicit_rollback_processes_pending (unitTM "pending") () 0
      ⟨"spoof_mac", "eth0", "00:11:22:33:44:55", "00:25:86:AA:BB:CC",
        "pending"⟩ rfl rfl).2.2 rfl).1

/-- Witness for C10: a raising first callback behaves exactly like a
`False`-returning one — the second callback still runs and decides. -/
theorem c10_witness :
    List.Forall₂ (fun cb cb' => ∀ (s : Unit) (t : Transaction),
        cb' s t = degradeOutcome (cb s t))
      [raisingCb, alwaysTrueCb] [alwaysFalseCb, alwaysTrueCb] ∧
    execCallbacks [raisingCb, alwaysTrueCb] ()
        ⟨"spoof_mac", "eth0", "00:11:22:33:44:55", "00:25:86:AA:BB:CC",
          "pending"⟩ 0 0 =
      execCallbacks [alwaysFalseCb, alwaysTrueCb] ()
        ⟨"spoof_mac", "eth0", "00:11:22:33:44:55", "00:25:86:AA:BB:CC",
          "pending"⟩ 0 0 := by
  have hf : List.Forall₂ (fun cb cb' => ∀ (s : Unit) (t : Transaction),
      cb' s t = degradeOutcome (cb s t))
      [raisingCb, alwaysTrueCb] [alwaysFalseCb, alwaysTrueCb] :=
    List.Forall₂.cons (fun s t => rfl)
      (List.Forall₂.cons (fun s t => rfl) List.Forall₂.nil)
  exact ⟨hf,
    c10_callback_exception_equivalent_to_failure _ _ hf ()
      ⟨"spoof_mac", "eth0", "00:11:22:33:44:55", "00:25:86:AA:BB:CC",
        "pending"⟩ 0 0⟩
